import Mathlib

/-!
Verification of the `media_sync.py` synchronization engine of the
jellyfin-refresh repository.

Strings from the Python source are embedded as `List Char`; the Python
substring operator `pat in s` becomes the list-infix relation `<:+:`
(decidable, hence executable through `decide`).  Filesystem paths are
embedded as lists of name components.  The external `ffprobe` call is
embedded by its observable outcome (an optional pixel width attached to
the symlink's resolved target); the walk done by `os.walk` is embedded
by the list of symlink records it yields, and the engine sorts that
list exactly as `find_symlinks_sorted` does.
-/

/-- Strings of the Python program, as lists of characters. -/
abbrev Str := List Char

/-- Shorthand turning a Lean string literal into the embedded string type. -/
def str (s : String) : Str := s.toList

/-- Python `str.lower()` (ASCII case folding suffices for the tokens used). -/
def lowerStr (s : Str) : Str := s.map Char.toLower

/-- Python substring test `pat in s`, as a Bool. -/
def isIn (pat s : Str) : Bool := decide (pat <:+: s)

/-- Resolution label "2160p". -/
def res2160 : Str := str "2160p"

/-- Resolution label "1080p". -/
def res1080 : Str := str "1080p"

/-- Resolution label "720p". -/
def res720 : Str := str "720p"

/-- The `_detect_filename_res` tier of `media_sync.py` (lines 103-109):
tokens "2160"/"4k"/"uhd" in the lowercased name give 2160p, else "1080"
gives 1080p, else no result. -/
def detect_filename_res (name : Str) : Option Str :=
  let n := lowerStr name
  if isIn (str "2160") n || isIn (str "4k") n || isIn (str "uhd") n then some res2160
  else if isIn (str "1080") n then some res1080
  else none

/-- The `_detect_keyword_res` tier (lines 112-119): "dv"/"dovi"/"hdr"
give 2160p, "avc" gives 1080p. -/
def detect_keyword_res (name : Str) : Option Str :=
  let n := lowerStr name
  if isIn (str "dv") n || isIn (str "dovi") n || isIn (str "hdr") n then some res2160
  else if isIn (str "avc") n then some res1080
  else none

/-- The `_detect_folder_res` tier (lines 122-128): "2160"/"4k" give
2160p (note: no "uhd" check, unlike the filename tier), "1080" gives
1080p. -/
def detect_folder_res (name : Str) : Option Str :=
  let n := lowerStr name
  if isIn (str "2160") n || isIn (str "4k") n then some res2160
  else if isIn (str "1080") n then some res1080
  else none

/-- The `_probe_resolution` mapping (lines 131-152), given the observable
outcome of the bounded `ffprobe` subprocess: `none` is any failure
(tool missing, timeout, empty or non-numeric output), `some w` is a
successfully read pixel width.  Width at least 3800 gives 2160p, at
least 1900 gives 1080p, otherwise 720p. -/
def probe_resolution (width : Option Int) : Option Str :=
  match width with
  | none => none
  | some w => some (if w ≥ 3800 then res2160 else if w ≥ 1900 then res1080 else res720)

/-- The resolved target of a symlink entry: basename, immediate parent
directory name, the `ffprobe` outcome for the target file, and an
identifier for the physical target path (used to record which targets
the classifier was invoked on). -/
structure Target where
  tname : Str
  tparent : Str
  width : Option Int
  tid : Nat
deriving DecidableEq, Repr

/-- The `detect_resolution` chain (lines 155-173): filename tier, then
keyword tier, then parent-folder tier, then probe, then the
caller-supplied default.  The Python function receives the resolved
target path; `t` carries its basename, parent name and probe outcome. -/
def detect_resolution (t : Target) (default_res : Str) : Str :=
  match detect_filename_res t.tname with
  | some r => r
  | none =>
    match detect_keyword_res t.tname with
    | some r => r
    | none =>
      match detect_folder_res t.tparent with
      | some r => r
      | none =>
        match probe_resolution t.width with
        | some r => r
        | none => default_res

/-- Whether the `detect_resolution` chain reaches the external probe
tier: true exactly when tiers 1-3 all return no result. -/
def detectCallsProbe (t : Target) : Bool :=
  (detect_filename_res t.tname).isNone && (detect_keyword_res t.tname).isNone
    && (detect_folder_res t.tparent).isNone

/-- Python `os.path.splitext` restricted to basenames (no path
separator): split at the last dot, unless every character before that
dot is itself a dot (so ".cshrc" has no extension).  Implemented on the
reversed list: the extension candidate is the maximal dot-free suffix. -/
def splitext (s : Str) : Str × Str :=
  match s.reverse.dropWhile (fun c => c ≠ '.') with
  | '.' :: rname =>
    if rname.any (fun c => c ≠ '.') then
      (rname.reverse, '.' :: (s.reverse.takeWhile (fun c => c ≠ '.')).reverse)
    else (s, [])
  | _ => (s, [])

/-- The tagging rename of `_sync_engine` lines 360-361:
`name, ext = splitext(basename); new_name = f"{name} - {res}{ext}"`. -/
def tagName (basename res : Str) : Str :=
  (splitext basename).1 ++ (' ' :: '-' :: ' ' :: res) ++ (splitext basename).2

/-- Pattern test for the episode regex `[Ss]\d{2}[Ee]\d{2}` at the head
of a character list. -/
def isEpAt (l : Str) : Bool :=
  match l with
  | a :: b :: c :: d :: e :: f :: _ =>
    (a = 'S' || a = 's') && b.isDigit && c.isDigit && (d = 'E' || d = 'e')
      && e.isDigit && f.isDigit
  | _ => false

/-- The episode-code extraction of `_sync_engine` lines 348-350:
`re.search(r"([Ss]\d{2}[Ee]\d{2})", basename)` taking the leftmost
match, or the empty string when there is none. -/
def extractEp : Str → Str
  | [] => []
  | x :: rest => if isEpAt (x :: rest) then (x :: rest).take 6 else extractEp rest

/-- A destination path, as the list of its components below the
destination root. -/
abbrev DPath := List Str

/-- One record produced by the source walk: the symlink's modification
time (epoch seconds), the grandparent directory name (`parent.parent.name`,
the show for TV sources), the parent directory name (season for TV,
movie for movies), the link basename, its resolved target, whether the
strict resolution fails (broken link), and whether the in-place tagging
rename would fail (the rename race of lines 364-371). -/
structure Entry where
  mtime : Int
  grand : Str
  parent : Str
  name : Str
  target : Target
  broken : Bool
  renameFails : Bool
deriving DecidableEq, Repr

/-- The keyword arguments of `_sync_engine` that steer one pass. -/
structure SyncCfg where
  is_tv : Bool
  full : Bool
  filter_show : Option Str
  filter_episode : Option Str
  filter_movie : Option Str
  default_res : Str
deriving DecidableEq, Repr

/-- Python truthiness of an optional string: `None` and `""` are falsy. -/
def truthy : Option Str → Bool
  | none => false
  | some s => !s.isEmpty

/-- Ordered trace of one pass: entries that entered the per-entry try
block (i.e. passed the scope filters and the early-stop check), target
ids the classifier was invoked on, target ids the external probe tier
was reached for, new basenames of successful tagging renames, intended
new basenames of failed renames (each producing a "Rename failed" log
line), and destination paths published. -/
structure PassTrace where
  processedL : List Entry
  classified : List Nat
  probed : List Nat
  renamed : List Str
  renameFailedL : List Str
  published : List DPath
deriving DecidableEq, Repr

/-- The empty trace. -/
def emptyTrace : PassTrace := ⟨[], [], [], [], [], []⟩

/-- Concatenation of traces, in pass order. -/
def PassTrace.app (a b : PassTrace) : PassTrace :=
  ⟨a.processedL ++ b.processedL, a.classified ++ b.classified, a.probed ++ b.probed,
   a.renamed ++ b.renamed, a.renameFailedL ++ b.renameFailedL, a.published ++ b.published⟩

/-- Result of processing a suffix of the entry list: trace, the
`processed_any` flag contribution, and the destination tree afterwards. -/
structure StepOut where
  trace : PassTrace
  pa : Bool
  dest : List DPath
deriving DecidableEq, Repr

/-- Destination path computation of `_sync_engine` lines 374-377:
`dest_root/show/season/basename` for TV, `dest_root/movie/basename`
for movies (components below the destination root). -/
def mkDest (cfg : SyncCfg) (e : Entry) (basename : Str) : DPath :=
  if cfg.is_tv then [e.grand, e.parent, basename] else [e.parent, basename]

/-- The body of the per-entry try block of `_sync_engine`
(lines 329-391): broken-link skip, episode filter, resolution
detection, tag-if-untagged (a failed rename is logged and the entry
continues under its original name), destination computation,
already-linked skip, and atomic publish.  `dest` is the set of
destination paths currently existing (membership embeds
`dest_path.exists() or dest_path.is_symlink()`). -/
def stepEntry (cfg : SyncCfg) (e : Entry) (dest : List DPath) : StepOut :=
  let t0 : PassTrace := { emptyTrace with processedL := [e] }
  if e.broken then ⟨t0, false, dest⟩
  else if cfg.is_tv = true ∧ truthy cfg.filter_episode = true
      ∧ extractEp e.name ≠ cfg.filter_episode.getD [] then ⟨t0, false, dest⟩
  else
    let res := detect_resolution e.target cfg.default_res
    let t1 : PassTrace := { t0 with
      classified := [e.target.tid]
      probed := if detectCallsProbe e.target then [e.target.tid] else [] }
    let rn : Str × Bool × PassTrace :=
      if isIn res e.name = false then
        if e.renameFails then (e.name, false, { t1 with renameFailedL := [tagName e.name res] })
        else (tagName e.name res, true, { t1 with renamed := [tagName e.name res] })
      else (e.name, false, t1)
    let d := mkDest cfg e rn.1
    if d ∈ dest then ⟨rn.2.2, rn.2.1, dest⟩
    else ⟨{ rn.2.2 with published := [d] }, true, dest ++ [d]⟩

/-- Sequencing of one entry's outcome with the rest of the loop: traces
concatenate in order, the `processed_any` flag is the disjunction, the
destination tree is threaded through. -/
def seqOut (s r : StepOut) : StepOut :=
  ⟨s.trace.app r.trace, s.pa || r.pa, r.dest⟩

/-- The main loop of `_sync_engine` (lines 307-395) over the sorted
entry list: movie filter, show filter, early-stop break
(`update_last_file and ts <= prev_ts`), then the per-entry try block.
`ul` is the `update_last_file` flag, `prev` the `prev_ts` watermark. -/
def runEntries (cfg : SyncCfg) (ul : Bool) (prev : Int) :
    List Entry → List DPath → StepOut
  | [], dest => ⟨emptyTrace, false, dest⟩
  | e :: rest, dest =>
    if truthy cfg.filter_movie = true ∧ cfg.is_tv = false
        ∧ e.parent ≠ cfg.filter_movie.getD [] then
      runEntries cfg ul prev rest dest
    else if truthy cfg.filter_show = true ∧ cfg.is_tv = true
        ∧ e.grand ≠ cfg.filter_show.getD [] then
      runEntries cfg ul prev rest dest
    else if ul = true ∧ e.mtime ≤ prev then ⟨emptyTrace, false, dest⟩
    else
      seqOut (stepEntry cfg e dest) (runEntries cfg ul prev rest (stepEntry cfg e dest).dest)

/-- Stable insertion (descending by mtime) used to embed the sort of
`find_symlinks_sorted`: an element is inserted after every
strictly-newer element and before the first one at most as new, which
keeps equal-mtime records in walk order, exactly like Python's stable
`list.sort(key=mtime, reverse=True)`. -/
def insertDesc (e : Entry) : List Entry → List Entry
  | [] => [e]
  | x :: xs => if x.mtime > e.mtime then x :: insertDesc e xs else e :: x :: xs

/-- The `find_symlinks_sorted` helper (lines 179-198), given the
symlink records yielded by the walk: sort newest first.  Stable
insertion sort computes the same list as Python's stable sort. -/
def find_symlinks_sorted (records : List Entry) : List Entry :=
  match records with
  | [] => []
  | x :: xs => insertDesc x (find_symlinks_sorted xs)

/-- Whether the pass ignores and does not update the watermark:
`full or filter_show or filter_episode or filter_movie`
(line 280; Python truthiness, so empty-string filters do not count). -/
def anyFilterFlag (cfg : SyncCfg) : Bool :=
  cfg.full || truthy cfg.filter_show || truthy cfg.filter_episode || truthy cfg.filter_movie

/-- Result of one whole `_sync_engine` pass. -/
structure PassResult where
  trace : PassTrace
  processedAny : Bool
  dest : List DPath
  prevUsed : Int
  wmAfter : Int
deriving DecidableEq, Repr

/-- One `_sync_engine` pass (lines 227-412): watermark-mode selection
(lines 278-289), the scan-sort, the main loop, and the final timestamp
policy (lines 397-410: write `now` only when `update_last_file` is set
and the pass mutated something).  `wmContent` is the integer parsed
from the watermark file (missing or corrupt content reads as 0),
`now` is `int(time.time())` taken at the start of the pass,
`destInit` the destination tree before the pass.  The destructive
`wipe_dest` branch (only reachable with `wipe_dest=True`, which none
of the claims under verification exercises) is not modelled. -/
def runPass (cfg : SyncCfg) (records : List Entry) (wmContent now : Int)
    (destInit : List DPath) : PassResult :=
  let af := anyFilterFlag cfg
  let prev : Int := if af then 0 else wmContent
  let ul := !af
  let o := runEntries cfg ul prev (find_symlinks_sorted records) destInit
  let wmAfter := if ul && o.pa then now else wmContent
  ⟨o.trace, o.pa, o.dest, prev, wmAfter⟩

/-- Failure injection points for `atomic_symlink` (lines 201-216): the
`os.symlink` call raising, the `os.replace` call raising (a failure
between temp-link creation and the final rename), or no injected
failure. -/
inductive PubFail where
  | atSymlink
  | atReplace
  | noFail
deriving DecidableEq, Repr

/-- Filesystem view of the two paths `atomic_symlink` touches: the
temporary sibling path `dest.tmp` and the destination path, each
holding either nothing or a symlink to a target id. -/
structure LinkState where
  tmp : Option Nat
  dst : Option Nat
deriving DecidableEq, Repr

/-- Python `Path.exists()` applied to a path holding a symlink: it
follows the link, so a dangling symlink reads as non-existent.
`files` is the set of target ids that exist. -/
def existsFollow (files : List Nat) (l : Option Nat) : Bool :=
  match l with
  | none => false
  | some t => files.contains t

/-- The `atomic_symlink` function (lines 201-216) with an injected
failure point.  The try block first unlinks a pre-existing temp path
(if `tmp.exists()`), then `os.symlink(target, tmp)` (raising
FileExistsError if the temp path is still occupied), then
`os.replace(tmp, dest)` which atomically moves the temp link onto the
destination.  The `finally` block unlinks the temp path if
`tmp.exists()` still holds.  The returned state is the filesystem
after the call, failed or not. -/
def atomic_symlink (files : List Nat) (target : Nat) (f : PubFail)
    (s0 : LinkState) : LinkState :=
  let s1 := if existsFollow files s0.tmp then { s0 with tmp := none } else s0
  let sTry : LinkState :=
    match f with
    | .atSymlink => s1
    | _ =>
      if s1.tmp.isSome then s1
      else
        let s2 := { s1 with tmp := some target }
        match f with
        | .atReplace => s2
        | _ => { tmp := none, dst := some target }
  if existsFollow files sTry.tmp then { sTry with tmp := none } else sTry

/-- Whether the injected-failure run of `atomic_symlink` completes
without raising: only the `noFail` injection with a free temp path. -/
def pubSucceeds (files : List Nat) (f : PubFail) (s0 : LinkState) : Bool :=
  let s1 := if existsFollow files s0.tmp then { s0 with tmp := none } else s0
  match f with
  | .noFail => !s1.tmp.isSome
  | _ => false

/-- Persistent state of one MediaSource: the symlink records its walk
yields and the integer content of its watermark file. -/
structure SrcState where
  records : List Entry
  wm : Int
deriving DecidableEq, Repr

/-- The four sources driven by `sync_all` (lines 508-515), the two
shared destination roots, and the current clock. -/
structure World where
  m4 : SrcState
  m10 : SrcState
  t4 : SrcState
  t10 : SrcState
  destMovies : List DPath
  destTv : List DPath
  now : Int
deriving DecidableEq, Repr

/-- Identity of a source, used by a drained pass to know which
watermark file and destination root to use. -/
inductive SourceId where
  | m4
  | m10
  | t4
  | t10
deriving DecidableEq, Repr

/-- A Python generator object returned by calling the generator
function `_sync_engine` through one of the wrappers: it captures the
call's arguments, and its body has not run.  In Python the body of a
generator function executes only when the returned generator is
iterated. -/
structure GenObj where
  cfg : SyncCfg
  which : SourceId
deriving DecidableEq, Repr

/-- The configuration `sync_movies_4k()` passes to `_sync_engine`
(lines 419-430) with default arguments. -/
def cfgMovies4k : SyncCfg :=
  ⟨false, false, none, none, none, res2160⟩

/-- The configuration `sync_movies_1080()` passes (lines 433-444). -/
def cfgMovies1080 : SyncCfg :=
  ⟨false, false, none, none, none, res1080⟩

/-- The configuration `sync_tv_4k()` passes (lines 448-459). -/
def cfgTv4k : SyncCfg :=
  ⟨true, false, none, none, none, res2160⟩

/-- The configuration `sync_tv_1080()` passes (lines 462-473). -/
def cfgTv1080 : SyncCfg :=
  ⟨true, false, none, none, none, res1080⟩

/-- Calling `sync_movies_4k()` with defaults: returns the generator
object, with no effect on the world. -/
def sync_movies_4k (_w : World) : GenObj := ⟨cfgMovies4k, .m4⟩

/-- Calling `sync_movies_1080()` with defaults. -/
def sync_movies_1080 (_w : World) : GenObj := ⟨cfgMovies1080, .m10⟩

/-- Calling `sync_tv_4k()` with defaults. -/
def sync_tv_4k (_w : World) : GenObj := ⟨cfgTv4k, .t4⟩

/-- Calling `sync_tv_1080()` with defaults. -/
def sync_tv_1080 (_w : World) : GenObj := ⟨cfgTv1080, .t10⟩

/-- Reading one source's state from the world. -/
def World.src (w : World) : SourceId → SrcState
  | .m4 => w.m4
  | .m10 => w.m10
  | .t4 => w.t4
  | .t10 => w.t10

/-- Writing one source's watermark back into the world. -/
def World.setWm (w : World) (i : SourceId) (v : Int) : World :=
  match i with
  | .m4 => { w with m4 := { w.m4 with wm := v } }
  | .m10 => { w with m10 := { w.m10 with wm := v } }
  | .t4 => { w with t4 := { w.t4 with wm := v } }
  | .t10 => { w with t10 := { w.t10 with wm := v } }

/-- Fully iterating a sync generator (what `auto_runner.drain` or a
`for line in ...` loop does): only now does the `_sync_engine` body
run, reading the source tree and watermark at iteration time and
writing back the destination tree and the watermark file. -/
def drainGen (w : World) (g : GenObj) : World :=
  let s := w.src g.which
  let dest := if g.cfg.is_tv then w.destTv else w.destMovies
  let r := runPass g.cfg s.records s.wm w.now dest
  let w1 := if g.cfg.is_tv then { w with destTv := r.dest } else { w with destMovies := r.dest }
  w1.setWm g.which r.wmAfter

/-- The `sync_all` function (lines 508-515) as written: its body is
four bare calls `sync_movies_4k()`, `sync_movies_1080()`,
`sync_tv_4k()`, `sync_tv_1080()` whose returned generator objects are
discarded without being iterated, so no generator body runs and the
world is unchanged. -/
def sync_all (w : World) : World :=
  let _g1 := sync_movies_4k w
  let _g2 := sync_movies_1080 w
  let _g3 := sync_tv_4k w
  let _g4 := sync_tv_1080 w
  w

/-- Modelled from the spec: what `sync_all`'s own docstring ("Run all
four syncs in this order") and the spec's Multi-Source Merge section
describe — each source's pass actually executed, in list order,
against the shared destination roots.  This is the drained version of
the four calls, for comparison with `sync_all` as written. -/
def sync_all_drained (w : World) : World :=
  let w1 := drainGen w (sync_movies_4k w)
  let w2 := drainGen w1 (sync_movies_1080 w1)
  let w3 := drainGen w2 (sync_tv_4k w2)
  drainGen w3 (sync_tv_1080 w3)

/-- A resolved target with a token-free basename and parent and an
unavailable probe. -/
def tgtPlain : Target := ⟨str "movie.mkv", str "moviedir", none, 5⟩

/-- An untagged movie entry over `tgtPlain`. -/
def entUntagged : Entry := ⟨100, str "Show", str "Movie", str "Movie.mkv", tgtPlain, false, false⟩

/-- A movie entry whose basename already carries the label its target
classifies to (2160p is the movies-4K default and `tgtPlain` reaches
the fallback tier). -/
def entTagged : Entry := ⟨100, str "Show", str "Movie", str "Movie - 2160p.mkv", tgtPlain, false, false⟩

/-- A target whose basename carries a "2160p" token. -/
def tgt2160 : Target := ⟨str "Movie.2160p.mkv", str "moviedir", none, 7⟩

/-- An entry whose basename carries a stale "1080p" label while its
target classifies as 2160p. -/
def entStale : Entry := ⟨100, str "Show", str "Movie", str "Movie.1080p.mkv", tgt2160, false, false⟩

/-- An untagged movie entry whose in-place tagging rename fails. -/
def entRenameFail : Entry := ⟨100, str "Show", str "Movie", str "Movie.mkv", tgtPlain, false, true⟩

/-- A family of untagged movie entries at a given modification time. -/
def entAt (m : Int) : Entry := ⟨m, str "Show", str "Movie", str "Movie.mkv", tgtPlain, false, false⟩

/-- The five-entry scan of the early-stop example: modification times
50, 40, 30, 20, 10. -/
def entries5 : List Entry := [entAt 50, entAt 40, entAt 30, entAt 20, entAt 10]

/-- A full-mode movies configuration. -/
def cfgFull : SyncCfg := ⟨false, true, none, none, none, res2160⟩

/-- A world with one new untagged movie symlink under the 4K movies
source, empty destinations, zero watermarks, clock at 1000. -/
def w0 : World := ⟨⟨[entUntagged], 0⟩, ⟨[], 0⟩, ⟨[], 0⟩, ⟨[], 0⟩, [], [], 1000⟩


theorem infix_map {f : Char → Char} {a b : Str} (h : a <:+: b) : a.map f <:+: b.map f := by
  obtain ⟨s, t, rfl⟩ := h
  exact ⟨s.map f, t.map f, by simp⟩

theorem infix_of_pre {a b : Str} (h : a <+: b) : a <:+: b := by
  obtain ⟨t, rfl⟩ := h
  exact ⟨[], t, by simp⟩

theorem infix_extend_right {a u : Str} (v : Str) (h : a <:+: u) : a <:+: u ++ v := by
  obtain ⟨s, t, rfl⟩ := h
  exact ⟨s, t ++ v, by simp⟩

theorem infix_extend_left (u : Str) {a v : Str} (h : a <:+: v) : a <:+: u ++ v := by
  obtain ⟨s, t, rfl⟩ := h
  exact ⟨u ++ s, t, by simp⟩

theorem infix_of_tail {a v : Str} (c : Char) (h : a <:+: v) : a <:+: c :: v := by
  obtain ⟨s, t, rfl⟩ := h
  exact ⟨c :: s, t, rfl⟩

theorem pre_of_append_cons {p : Str} {c : Char} (hc : c ∉ p) :
    ∀ {u v : Str}, p <+: u ++ c :: v → p <+: u := by
  intro u
  induction u generalizing p with
  | nil =>
    intro v h
    cases p with
    | nil => exact List.nil_prefix
    | cons x p' =>
      obtain ⟨t, ht⟩ := h
      simp at ht
      exact absurd (ht.1 ▸ List.mem_cons_self x p') (ht.1 ▸ hc)
  | cons y u' ih =>
    intro v h
    cases p with
    | nil => exact List.nil_prefix
    | cons x p' =>
      obtain ⟨t, ht⟩ := h
      simp at ht
      obtain ⟨rfl, ht'⟩ := ht
      have hc' : c ∉ p' := fun hm => hc (List.mem_cons_of_mem _ hm)
      have := ih hc' ⟨t, ht'⟩
      obtain ⟨t', ht''⟩ := this
      exact ⟨t', by simp [← ht'']⟩

theorem infix_of_append_cons {p : Str} {c : Char} (hc : c ∉ p) :
    ∀ {u v : Str}, p <:+: u ++ c :: v → p <:+: u ∨ p <:+: v := by
  intro u
  induction u generalizing p with
  | nil =>
    intro v h
    simp only [List.nil_append] at h
    rcases List.infix_cons_iff.mp h with h' | h'
    · cases p with
      | nil => exact Or.inr ⟨[], v, by simp⟩
      | cons x p' =>
        obtain ⟨t, ht⟩ := h'
        simp at ht
        exact absurd (ht.1 ▸ List.mem_cons_self x p') (ht.1 ▸ hc)
    · exact Or.inr h'
  | cons y u' ih =>
    intro v h
    rcases List.infix_cons_iff.mp h with h' | h'
    · have : p <+: y :: u' := pre_of_append_cons hc (u := y :: u') h'
      exact Or.inl (infix_of_pre this)
    · rcases ih hc h' with h'' | h''
      · exact Or.inl (infix_of_tail y h'')
      · exact Or.inr h''

/-- The two halves of `splitext` reassemble the input. -/
theorem splitext_join (s : Str) : (splitext s).1 ++ (splitext s).2 = s := by
  unfold splitext
  have key := List.takeWhile_append_dropWhile (p := fun c => decide (c ≠ '.')) (l := s.reverse)
  split
  · next rname heq =>
    split
    · next =>
      have hs : s.reverse = s.reverse.takeWhile (fun c => decide (c ≠ '.')) ++ '.' :: rname := by
        rw [← heq]; exact key.symm
      have h2 := congrArg List.reverse hs
      simp at h2
      conv_rhs => rw [h2]
      simp
    · simp
  · simp

/-- The extension half of `splitext` is empty or starts with a dot. -/
theorem splitext_ext (s : Str) : (splitext s).2 = [] ∨ ∃ t, (splitext s).2 = '.' :: t := by
  unfold splitext
  split
  · split
    · exact Or.inr ⟨_, rfl⟩
    · exact Or.inl rfl
  · exact Or.inl rfl

/-- The inserted label occurs in the tagged name. -/
theorem label_in_tagName (name res : Str) : res <:+: tagName name res := by
  unfold tagName
  exact ⟨(splitext name).1 ++ [' ', '-', ' '], (splitext name).2, by simp⟩

/-- Characters of the three resolution labels: none contains a space,
a dash or a dot, and none is empty. -/
theorem label_chars {L : Str} (h : L ∈ [res2160, res1080, res720]) :
    ' ' ∉ L ∧ '-' ∉ L ∧ '.' ∉ L ∧ L ≠ [] := by
  simp only [List.mem_cons, List.not_mem_nil, or_false] at h
  rcases h with rfl | rfl | rfl <;> refine ⟨by decide, by decide, by decide, by decide⟩

/-- No label other than `res` occurs in `tagName name res` when none
occurs in `name`. -/
theorem tagName_no_other_label {name L res : Str}
    (hL : ¬ L <:+: name) (hLne : L ≠ res)
    (hLlab : L ∈ [res2160, res1080, res720]) (hreslab : res ∈ [res2160, res1080, res720]) :
    ¬ L <:+: tagName name res := by
  obtain ⟨hsp, hdash, hdot, hne⟩ := label_chars hLlab
  intro h
  have hshape : tagName name res
      = (splitext name).1 ++ ' ' :: ('-' :: ' ' :: (res ++ (splitext name).2)) := by
    unfold tagName; simp
  rw [hshape] at h
  rcases infix_of_append_cons hsp h with h1 | h1
  · exact hL (splitext_join name ▸ infix_extend_right (splitext name).2 h1)
  · -- h1 : L <:+: '-' :: ' ' :: (res ++ ext)
    rcases List.infix_cons_iff.mp h1 with h2 | h2
    · cases L with
      | nil => exact hne rfl
      | cons x L' =>
        obtain ⟨t, ht⟩ := h2
        simp at ht
        exact hdash (ht.1 ▸ List.mem_cons_self x L')
    · rcases List.infix_cons_iff.mp h2 with h3 | h3
      · cases L with
        | nil => exact hne rfl
        | cons x L' =>
          obtain ⟨t, ht⟩ := h3
          simp at ht
          exact hsp (ht.1 ▸ List.mem_cons_self x L')
      · -- h3 : L <:+: res ++ ext
        have hnotres : ¬ L <:+: res := by
          simp only [List.mem_cons, List.not_mem_nil, or_false] at hLlab hreslab
          rcases hLlab with rfl | rfl | rfl <;> rcases hreslab with rfl | rfl | rfl <;>
            first | (exact absurd rfl hLne) | decide
        rcases splitext_ext name with he | ⟨t, he⟩
        · rw [he] at h3
          simp at h3
          exact hnotres h3
        · rw [he] at h3
          rcases infix_of_append_cons hdot h3 with h4 | h4
          · exact hnotres h4
          · have : L <:+: (splitext name).2 := he ▸ infix_of_tail '.' h4
            exact hL (splitext_join name ▸ infix_extend_left (splitext name).1 this)

/-- Every entry that enters the try block is recorded exactly once. -/
theorem stepEntry_processedL (cfg : SyncCfg) (e : Entry) (dest : List DPath) :
    (stepEntry cfg e dest).trace.processedL = [e] := by
  unfold stepEntry
  by_cases hn : isIn (detect_resolution e.target cfg.default_res) e.name = false
  all_goals simp only [hn, if_pos, if_neg, ite_true, ite_false, eq_self_iff_true, not_false_iff]
  all_goals (try split_ifs)
  all_goals simp_all [emptyTrace]

/-- The `processed_any` contribution of one entry is true exactly when
the entry was renamed or published. -/
theorem stepEntry_pa_iff (cfg : SyncCfg) (e : Entry) (dest : List DPath) :
    (stepEntry cfg e dest).pa = true ↔
      (stepEntry cfg e dest).trace.renamed ≠ [] ∨ (stepEntry cfg e dest).trace.published ≠ [] := by
  unfold stepEntry
  by_cases hn : isIn (detect_resolution e.target cfg.default_res) e.name = false
  all_goals simp only [hn, if_pos, if_neg, ite_true, ite_false, eq_self_iff_true, not_false_iff]
  all_goals (try split_ifs)
  all_goals simp_all [emptyTrace]

set_option maxHeartbeats 1000000 in
/-- The `processed_any` flag of a pass is true exactly when the pass
renamed or published something. -/
theorem runEntries_pa_iff (cfg : SyncCfg) (ul : Bool) (prev : Int) :
    ∀ (l : List Entry) (dest : List DPath),
      (runEntries cfg ul prev l dest).pa = true ↔
        (runEntries cfg ul prev l dest).trace.renamed ≠ [] ∨
        (runEntries cfg ul prev l dest).trace.published ≠ [] := by
  intro l
  induction l with
  | nil => intro dest; simp [runEntries, emptyTrace]
  | cons e rest ih =>
    intro dest
    unfold runEntries
    split
    · exact ih dest
    · split
      · exact ih dest
      · split
        · simp [emptyTrace]
        · have hs := stepEntry_pa_iff cfg e dest
          have hr := ih (stepEntry cfg e dest).dest
          generalize hS : stepEntry cfg e dest = S at hs hr ⊢
          generalize hR : runEntries cfg ul prev rest S.dest = R at hr ⊢
          show (S.pa || R.pa) = true ↔
            (S.trace.app R.trace).renamed ≠ [] ∨ (S.trace.app R.trace).published ≠ []
          simp only [PassTrace.app, Bool.or_eq_true, Ne, List.append_eq_nil, not_and_or]
          rw [hs, hr]
          simp only [Ne]
          tauto

/-- In a watermark-honouring pass with no movie and no show filter, the
entries entering the try block are exactly the longest newest-first
prefix of strictly-newer-than-watermark entries. -/
theorem runEntries_processedL (cfg : SyncCfg) (prev : Int)
    (hm : truthy cfg.filter_movie = false) (hs : truthy cfg.filter_show = false) :
    ∀ (l : List Entry) (dest : List DPath),
      (runEntries cfg true prev l dest).trace.processedL
        = l.takeWhile (fun e => decide (prev < e.mtime)) := by
  intro l
  induction l with
  | nil => intro dest; simp [runEntries, emptyTrace]
  | cons e rest ih =>
    intro dest
    unfold runEntries
    rw [if_neg (by simp [hm]), if_neg (by simp [hs])]
    by_cases hstop : e.mtime ≤ prev
    · rw [if_pos ⟨rfl, hstop⟩]
      have : (decide (prev < e.mtime)) = false := by simpa using hstop
      simp [List.takeWhile, this, emptyTrace]
    · rw [if_neg (by simp [hstop])]
      have hlt : (decide (prev < e.mtime)) = true := by simpa using Int.lt_of_not_ge hstop
      simp only [seqOut, PassTrace.app, List.takeWhile, hlt, cond_true]
      rw [stepEntry_processedL, ih]
      simp

/-- Membership through stable insertion. -/
theorem mem_insertDesc {y e : Entry} : ∀ {l : List Entry}, y ∈ insertDesc e l ↔ y = e ∨ y ∈ l := by
  intro l
  induction l with
  | nil => simp [insertDesc]
  | cons x xs ih =>
    unfold insertDesc
    split
    · simp only [List.mem_cons, ih]
      tauto
    · simp only [List.mem_cons]

/-- Stable insertion preserves the newest-first ordering. -/
theorem pairwise_insertDesc {e : Entry} :
    ∀ {l : List Entry}, l.Pairwise (fun a b => b.mtime ≤ a.mtime) →
      (insertDesc e l).Pairwise (fun a b => b.mtime ≤ a.mtime) := by
  intro l
  induction l with
  | nil => intro _; simp [insertDesc]
  | cons x xs ih =>
    intro hp
    rw [List.pairwise_cons] at hp
    obtain ⟨hx, hxs⟩ := hp
    unfold insertDesc
    split
    · next hgt =>
      rw [List.pairwise_cons]
      constructor
      · intro y hy
        rcases mem_insertDesc.mp hy with rfl | hy'
        · exact Int.le_of_lt hgt
        · exact hx y hy'
      · exact ih hxs
    · next hle =>
      rw [List.pairwise_cons]
      constructor
      · intro y hy
        rcases List.mem_cons.mp hy with rfl | hy'
        · exact Int.not_lt.mp hle
        · exact Int.le_trans (hx y hy') (Int.not_lt.mp hle)
      · exact List.pairwise_cons.mpr ⟨hx, hxs⟩

/-- The scan's output is sorted newest first. -/
theorem pairwise_find_symlinks_sorted (records : List Entry) :
    (find_symlinks_sorted records).Pairwise (fun a b => b.mtime ≤ a.mtime) := by
  induction records with
  | nil => simp [find_symlinks_sorted]
  | cons x xs ih => exact pairwise_insertDesc ih

/-- On a newest-first list, cutting at the watermark keeps exactly the
strictly-newer entries. -/
theorem takeWhile_eq_filter_sorted (prev : Int) :
    ∀ {l : List Entry}, l.Pairwise (fun a b => b.mtime ≤ a.mtime) →
      l.takeWhile (fun e => decide (prev < e.mtime))
        = l.filter (fun e => decide (prev < e.mtime)) := by
  intro l
  induction l with
  | nil => simp
  | cons x xs ih =>
    intro hp
    rw [List.pairwise_cons] at hp
    obtain ⟨hx, hxs⟩ := hp
    by_cases hlt : prev < x.mtime
    · have : (decide (prev < x.mtime)) = true := by simpa using hlt
      simp only [List.takeWhile, List.filter, this, cond_true]
      rw [ih hxs]
    · have hd : (decide (prev < x.mtime)) = false := by simpa using hlt
      simp only [List.takeWhile, List.filter, hd, cond_false]
      have : xs.filter (fun e => decide (prev < e.mtime)) = [] := by
        rw [List.filter_eq_nil_iff]
        intro a ha
        simp only [decide_eq_true_eq]
        have h1 : a.mtime ≤ x.mtime := hx a ha
        have h2 : x.mtime ≤ prev := Int.not_lt.mp hlt
        exact Int.not_lt.mpr (Int.le_trans h1 h2)
      rw [this]

/-- C2: in a pure-incremental pass the persisted watermark never
decreases (given the clock advanced past the stored watermark since it
was written, `wm < now`), and it stays equal exactly when the pass
performed no mutation (no rename and no publish). -/
theorem c2_watermark_monotone (cfg : SyncCfg) (records : List Entry) (wm now : Int)
    (dest : List DPath) (hf : cfg.full = false) (h1 : cfg.filter_show = none)
    (h2 : cfg.filter_episode = none) (h3 : cfg.filter_movie = none) (hc : wm < now) :
    wm ≤ (runPass cfg records wm now dest).wmAfter ∧
      ((runPass cfg records wm now dest).wmAfter = wm ↔
        (runPass cfg records wm now dest).trace.renamed = [] ∧
        (runPass cfg records wm now dest).trace.published = []) := by
  have haf : anyFilterFlag cfg = false := by
    simp [anyFilterFlag, hf, h1, h2, h3, truthy]
  have hiff := runEntries_pa_iff cfg true wm (find_symlinks_sorted records) dest
  simp only [runPass, haf, Bool.not_false, Bool.false_eq_true, if_false, Bool.true_and]
  generalize hE : runEntries cfg true wm (find_symlinks_sorted records) dest = E at hiff ⊢
  by_cases hpa : E.pa = true
  · rw [if_pos hpa]
    refine ⟨Int.le_of_lt hc, ?_, ?_⟩
    · intro h
      exact absurd h (Int.ne_of_gt hc)
    · rintro ⟨hr, hp⟩
      rcases hiff.mp hpa with h' | h'
      · exact absurd hr h'
      · exact absurd hp h'
  · rw [if_neg hpa]
    refine ⟨Int.le_refl wm, fun _ => ?_, fun _ => rfl⟩
    have h' : ¬(E.trace.renamed ≠ [] ∨ E.trace.published ≠ []) := fun hcon => hpa (hiff.mpr hcon)
    push_neg at h'
    exact h'

/-- C3: a pure-incremental pass processes exactly the longest
newest-first prefix of entries strictly newer than the watermark;
since the scan is sorted newest first, these are exactly all entries
strictly newer than the watermark. -/
theorem c3_early_stop (cfg : SyncCfg) (records : List Entry) (wm now : Int)
    (dest : List DPath) (hf : cfg.full = false) (h1 : cfg.filter_show = none)
    (h2 : cfg.filter_episode = none) (h3 : cfg.filter_movie = none) :
    (runPass cfg records wm now dest).trace.processedL
        = (find_symlinks_sorted records).takeWhile (fun e => decide (wm < e.mtime))
      ∧ (runPass cfg records wm now dest).trace.processedL
        = (find_symlinks_sorted records).filter (fun e => decide (wm < e.mtime)) := by
  have haf : anyFilterFlag cfg = false := by
    simp [anyFilterFlag, hf, h1, h2, h3, truthy]
  have hm : truthy cfg.filter_movie = false := by simp [h3, truthy]
  have hsh : truthy cfg.filter_show = false := by simp [h1, truthy]
  have h := runEntries_processedL cfg wm hm hsh (find_symlinks_sorted records) dest
  constructor
  · simp only [runPass, haf, Bool.not_false, Bool.false_eq_true, if_false]
    exact h
  · simp only [runPass, haf, Bool.not_false, Bool.false_eq_true, if_false]
    exact h.trans (takeWhile_eq_filter_sorted wm (pairwise_find_symlinks_sorted records))

/-- C5: a pass with the full flag or any (truthy) movie, show or
episode filter treats the watermark as zero and leaves the persisted
watermark unchanged, whatever the pass did. -/
theorem c5_filtered_pass_ignores_watermark (cfg : SyncCfg) (records : List Entry)
    (wm now : Int) (dest : List DPath)
    (h : cfg.full = true ∨ truthy cfg.filter_show = true ∨ truthy cfg.filter_episode = true
      ∨ truthy cfg.filter_movie = true) :
    (runPass cfg records wm now dest).prevUsed = 0 ∧
      (runPass cfg records wm now dest).wmAfter = wm := by
  have haf : anyFilterFlag cfg = true := by
    rcases h with h | h | h | h <;> simp [anyFilterFlag, h]
  simp [runPass, haf]

/-- C1 (amended): an entry whose basename already contains its detected
label is still classified (the classifier runs on every processed
entry), but is never renamed — the tagging mutation, not
classification, is what happens at most once. -/
theorem c1_tagged_classified_not_renamed (cfg : SyncCfg) (e : Entry) (dest : List DPath)
    (hb : e.broken = false)
    (hep : ¬(cfg.is_tv = true ∧ truthy cfg.filter_episode = true
      ∧ extractEp e.name ≠ cfg.filter_episode.getD []))
    (ht : isIn (detect_resolution e.target cfg.default_res) e.name = true) :
    (stepEntry cfg e dest).trace.classified = [e.target.tid] ∧
      (stepEntry cfg e dest).trace.renamed = [] ∧
      (stepEntry cfg e dest).trace.renameFailedL = [] := by
  unfold stepEntry
  by_cases hn : isIn (detect_resolution e.target cfg.default_res) e.name = false
  · rw [ht] at hn; cases hn
  · split_ifs
    all_goals try simp_all [emptyTrace]
    all_goals split <;> simp_all [emptyTrace]

/-- C10: when the tagging rename fails on an untagged entry, the entry
is not skipped: the failure is logged and the entry is published at the
destination under its original, untagged basename. -/
theorem c10_rename_failure_still_publishes (cfg : SyncCfg) (e : Entry) (dest : List DPath)
    (hb : e.broken = false)
    (hep : ¬(cfg.is_tv = true ∧ truthy cfg.filter_episode = true
      ∧ extractEp e.name ≠ cfg.filter_episode.getD []))
    (hut : isIn (detect_resolution e.target cfg.default_res) e.name = false)
    (hrf : e.renameFails = true)
    (hd : mkDest cfg e e.name ∉ dest) :
    (stepEntry cfg e dest).trace.renamed = [] ∧
      (stepEntry cfg e dest).trace.renameFailedL
        = [tagName e.name (detect_resolution e.target cfg.default_res)] ∧
      (stepEntry cfg e dest).trace.published = [mkDest cfg e e.name] ∧
      (stepEntry cfg e dest).dest = dest ++ [mkDest cfg e e.name] := by
  unfold stepEntry
  split_ifs
  all_goals simp_all [emptyTrace]

/-- C9 (amended): tagging inserts the detected label into the new name
(so a tagged file is never renamed again), and when the original name
carried no resolution label the tagged name carries exactly the one
inserted label and neither of the other two. -/
theorem c9_tag_exactly_one_label (name res : Str)
    (hres : res ∈ [res2160, res1080, res720])
    (h1 : isIn res2160 name = false) (h2 : isIn res1080 name = false)
    (h3 : isIn res720 name = false) :
    isIn res (tagName name res) = true ∧
      ∀ L, L ∈ [res2160, res1080, res720] → L ≠ res → isIn L (tagName name res) = false := by
  constructor
  · simpa [isIn] using label_in_tagName name res
  · intro L hL hLne
    have hnin : ¬ L <:+: name := by
      simp only [List.mem_cons, List.not_mem_nil, or_false] at hL
      rcases hL with rfl | rfl | rfl
      · simpa [isIn] using h1
      · simpa [isIn] using h2
      · simpa [isIn] using h3
    simpa [isIn] using tagName_no_other_label hnin hLne hL hres

/-- C6: on a clean destination (no temp artifact, destination absent)
with an existing link target, a failure injected at any step of
`atomic_symlink` leaves no temp artifact and no destination entry; a
successful run leaves exactly the final link; and the destination is
never observable in any state other than wholly absent or wholly
final. -/
theorem c6_atomic_publish (files : List Nat) (target : Nat) (ht : target ∈ files)
    (f : PubFail) :
    (pubSucceeds files f ⟨none, none⟩ = false →
        atomic_symlink files target f ⟨none, none⟩ = ⟨none, none⟩) ∧
      (pubSucceeds files f ⟨none, none⟩ = true →
        atomic_symlink files target f ⟨none, none⟩ = ⟨none, some target⟩) ∧
      ((atomic_symlink files target f ⟨none, none⟩).dst = none ∨
        (atomic_symlink files target f ⟨none, none⟩).dst = some target) := by
  have hc : files.contains target = true := by simpa using ht
  cases f <;> simp [atomic_symlink, pubSucceeds, existsFollow, hc, ht]

/-- C7 (amended): first-match tiers — a filename containing "2160p"
classifies as 2160p regardless of folder, probe or default; a filename
matched by no filename or keyword tier, under a parent containing
"1080" but neither "2160" nor "4k", classifies as 1080p; a filename and
parent matched by no tier with an unavailable probe falls back to the
caller-supplied default. -/
theorem c7_resolution_chain :
    (∀ (t : Target) (d : Str), str "2160p" <:+: t.tname → detect_resolution t d = res2160) ∧
    (∀ (t : Target) (d : Str), detect_filename_res t.tname = none →
      detect_keyword_res t.tname = none →
      isIn (str "1080") (lowerStr t.tparent) = true →
      isIn (str "2160") (lowerStr t.tparent) = false →
      isIn (str "4k") (lowerStr t.tparent) = false →
      detect_resolution t d = res1080) ∧
    (∀ (t : Target) (d : Str), detect_filename_res t.tname = none →
      detect_keyword_res t.tname = none →
      detect_folder_res t.tparent = none →
      t.width = none →
      detect_resolution t d = d) := by
  refine ⟨?_, ?_, ?_⟩
  · intro t d h
    have hmap := infix_map (f := Char.toLower) h
    have heq : (str "2160p").map Char.toLower = str "2160p" := by decide
    rw [heq] at hmap
    have h4 : str "2160" <:+: lowerStr t.tname :=
      (show str "2160" <:+: str "2160p" by decide).trans hmap
    have hfn : detect_filename_res t.tname = some res2160 := by
      have : isIn (str "2160") (lowerStr t.tname) = true := by simpa [isIn] using h4
      simp [detect_filename_res, this]
    simp [detect_resolution, hfn]
  · intro t d hfn hkw h10 h21 h4k
    have hfo : detect_folder_res t.tparent = some res1080 := by
      simp [detect_folder_res, h10, h21, h4k]
    simp [detect_resolution, hfn, hkw, hfo]
  · intro t d hfn hkw hfo hw
    simp [detect_resolution, hfn, hkw, hfo, hw, probe_resolution]

/-- C8 (amended): the parent-folder tier is not the same test as the
filename tier — it checks only "2160" and "4k" (not "uhd") for the 4K
label, with "1080" giving 1080p only when neither 4K token occurs. -/
theorem c8_folder_tier :
    (∀ (t : Target) (d : Str), detect_filename_res t.tname = none →
      detect_keyword_res t.tname = none →
      (isIn (str "2160") (lowerStr t.tparent) = true ∨ isIn (str "4k") (lowerStr t.tparent) = true) →
      detect_resolution t d = res2160) ∧
    (∀ (t : Target) (d : Str), detect_filename_res t.tname = none →
      detect_keyword_res t.tname = none →
      isIn (str "1080") (lowerStr t.tparent) = true →
      isIn (str "2160") (lowerStr t.tparent) = false →
      isIn (str "4k") (lowerStr t.tparent) = false →
      detect_resolution t d = res1080) ∧
    detect_folder_res (str "uhd") = none := by
  refine ⟨?_, ?_, by decide⟩
  · intro t d hfn hkw hfo
    have hf : detect_folder_res t.tparent = some res2160 := by
      rcases hfo with h | h <;> simp [detect_folder_res, h]
    simp [detect_resolution, hfn, hkw, hf]
  · intro t d hfn hkw h10 h21 h4k
    have hfo : detect_folder_res t.tparent = some res1080 := by
      simp [detect_folder_res, h10, h21, h4k]
    simp [detect_resolution, hfn, hkw, hfo]

/-- C1 counterexample: an entry whose basename is already tagged with
its detected label (`entTagged`) is still classified and still reaches
the external probe tier during a pass — tagged names are re-probed. -/
theorem c1_counterexample :
    isIn (detect_resolution entTagged.target cfgMovies4k.default_res) entTagged.name = true ∧
      (runPass cfgMovies4k [entTagged] 0 1000 []).trace.probed ≠ [] ∧
      (runPass cfgMovies4k [entTagged] 0 1000 []).trace.classified ≠ [] := by decide

/-- C1 witness: the amended theorem at the concrete tagged entry. -/
theorem c1_witness :
    (stepEntry cfgMovies4k entTagged []).trace.classified = [5] ∧
      (stepEntry cfgMovies4k entTagged []).trace.renamed = [] := by
  have h := c1_tagged_classified_not_renamed cfgMovies4k entTagged [] (by decide) (by decide)
    (by decide)
  exact ⟨h.1.trans (by decide), h.2.1⟩

/-- C2 witness: the watermark theorem at a concrete mutating pass. -/
theorem c2_witness :
    0 ≤ (runPass cfgMovies4k [entUntagged] 0 1000 []).wmAfter ∧
      ((runPass cfgMovies4k [entUntagged] 0 1000 []).wmAfter = 0 ↔
        (runPass cfgMovies4k [entUntagged] 0 1000 []).trace.renamed = [] ∧
        (runPass cfgMovies4k [entUntagged] 0 1000 []).trace.published = []) :=
  c2_watermark_monotone cfgMovies4k [entUntagged] 0 1000 [] rfl rfl rfl rfl (by decide)

/-- C3 witness: entries at mtimes 50, 40, 30, 20, 10 with watermark 30
give exactly the entries at 50 and 40. -/
theorem c3_witness :
    (runPass cfgMovies4k entries5 30 1000 []).trace.processedL = [entAt 50, entAt 40] := by
  have h := (c3_early_stop cfgMovies4k entries5 30 1000 [] rfl rfl rfl rfl).1
  rw [h]; decide

/-- C4: `sync_all` as written leaves the world untouched (the four
generator objects are discarded unconsumed), while the drained version
its docstring describes performs the passes and changes the world. -/
theorem c4_sync_all_runs_nothing : sync_all w0 = w0 ∧ sync_all_drained w0 ≠ w0 :=
  ⟨rfl, by decide⟩

/-- C5 witness: a full pass over a mutating source leaves the
watermark file at its previous value and uses zero as the cursor. -/
theorem c5_witness :
    (runPass cfgFull [entUntagged] 5 1000 []).prevUsed = 0 ∧
      (runPass cfgFull [entUntagged] 5 1000 []).wmAfter = 5 :=
  c5_filtered_pass_ignores_watermark cfgFull [entUntagged] 5 1000 [] (Or.inl rfl)

/-- C6 witness: the atomic-publish theorem at target 7, for a failure
injected between temp-link creation and rename, and for a clean run. -/
theorem c6_witness :
    atomic_symlink [7] 7 PubFail.atReplace ⟨none, none⟩ = ⟨none, none⟩ ∧
      atomic_symlink [7] 7 PubFail.noFail ⟨none, none⟩ = ⟨none, some 7⟩ := by
  have h := c6_atomic_publish [7] 7 (by decide) PubFail.atReplace
  have h2 := c6_atomic_publish [7] 7 (by decide) PubFail.noFail
  exact ⟨h.1 (by decide), h2.2.1 (by decide)⟩

/-- C7 counterexample: a token-free filename under a parent folder
containing "1080" (but also "4k") classifies as 2160p, not 1080p — the
folder tier is first-match, so the claim's second clause fails as
stated. -/
theorem c7_counterexample :
    detect_filename_res (str "movie.mkv") = none ∧
      detect_keyword_res (str "movie.mkv") = none ∧
      isIn (str "1080") (lowerStr (str "4k-1080")) = true ∧
      detect_resolution ⟨str "movie.mkv", str "4k-1080", none, 1⟩ res720 = res2160 ∧
      res2160 ≠ res1080 := by decide

/-- C7 witness: the amended chain at concrete inputs for each clause. -/
theorem c7_witness :
    detect_resolution ⟨str "Film.2160p.mkv", str "x", some 100, 1⟩ res720 = res2160 ∧
      detect_resolution ⟨str "movie.mkv", str "1080p-remux", none, 2⟩ res720 = res1080 ∧
      detect_resolution ⟨str "movie.mkv", str "films", none, 3⟩ res720 = res720 :=
  ⟨c7_resolution_chain.1 _ _ (by decide),
    c7_resolution_chain.2.1 _ _ (by decide) (by decide) (by decide) (by decide) (by decide),
    c7_resolution_chain.2.2 _ _ (by decide) (by decide) (by decide) rfl⟩

/-- C8 counterexample: a parent folder named "uhd" is matched by the
filename tier's substring test but not by the folder tier, so a
token-free file under it falls through to the probe/default — the
folder tier is not "the same substring test". -/
theorem c8_counterexample :
    detect_filename_res (str "uhd") = some res2160 ∧
      detect_folder_res (str "uhd") = none ∧
      detect_filename_res (str "movie.mkv") = none ∧
      detect_keyword_res (str "movie.mkv") = none ∧
      detect_resolution ⟨str "movie.mkv", str "uhd", none, 1⟩ res720 = res720 ∧
      res720 ≠ res2160 := by decide

/-- C8 witness: the amended folder tier at concrete inputs. -/
theorem c8_witness :
    detect_resolution ⟨str "movie.mkv", str "4K Movies", none, 1⟩ res720 = res2160 ∧
      detect_resolution ⟨str "movie.mkv", str "1080 Movies", none, 2⟩ res720 = res1080 :=
  ⟨c8_folder_tier.1 _ _ (by decide) (by decide) (Or.inr (by decide)),
    c8_folder_tier.2.1 _ _ (by decide) (by decide) (by decide) (by decide) (by decide)⟩

/-- C9 counterexample: an entry whose basename carries a stale "1080p"
label while its target detects as 2160p is renamed to a name carrying
both labels, and published that way — destination filenames can carry
two resolution labels. -/
theorem c9_counterexample :
    (runPass cfgMovies4k [entStale] 0 1000 []).trace.published
        = [[str "Movie", str "Movie.1080p - 2160p.mkv"]] ∧
      isIn res1080 (str "Movie.1080p - 2160p.mkv") = true ∧
      isIn res2160 (str "Movie.1080p - 2160p.mkv") = true := by decide

/-- C9 witness: the exactly-one-label theorem at a concrete clean
name. -/
theorem c9_witness :
    isIn res2160 (tagName (str "Movie.mkv") res2160) = true ∧
      isIn res1080 (tagName (str "Movie.mkv") res2160) = false ∧
      isIn res720 (tagName (str "Movie.mkv") res2160) = false := by
  have h := c9_tag_exactly_one_label (str "Movie.mkv") res2160 (by decide) (by decide)
    (by decide) (by decide)
  exact ⟨h.1, h.2 res1080 (by decide) (by decide), h.2 res720 (by decide) (by decide)⟩

/-- C10 witness: the rename-failure theorem at a concrete entry whose
rename fails — published under the original untagged name with the
failure logged. -/
theorem c10_witness :
    (stepEntry cfgMovies4k entRenameFail []).trace.published
        = [[str "Movie", str "Movie.mkv"]] ∧
      (stepEntry cfgMovies4k entRenameFail []).trace.renameFailedL ≠ [] := by
  have h := c10_rename_failure_still_publishes cfgMovies4k entRenameFail [] (by decide)
    (by decide) (by decide) rfl (by decide)
  refine ⟨h.2.2.1.trans (by decide), ?_⟩
  rw [h.2.1]; decide
